import Mathlib

/-!
Shallow embedding of the Lumix carbon-credit core
(`app/handlers/verification.py`, `app/handlers/carbon.py`,
`app/handlers/ingestion.py`, `app/core/constants.py`,
`app/utils/hashing.py`, `app/models/*`).

Modelling conventions:
* Python floats are modelled as `ℚ`; the only genuinely irrational
  operation, `math.sqrt` in `calculate_correlation`, is modelled by
  `Real.sqrt`, so that function returns `ℝ`.
* Dates are modelled as natural-number day indices; a Python
  `datetime` timestamp is a day index together with an hour-of-day
  (`Fin 24`, matching `datetime.hour`).  The SQL window
  `start_of_day ≤ timestamp ≤ end_of_day` used by both
  `verify_credit` and `calculate_daily_credit` is exactly
  "the reading's day index equals the credit date".
* The database session is a record of lists; `session.commit()` of a
  mutated ORM row is replacement of the first matching row, and
  `session.add` of a fresh row is appending.
* `hash_payload` (SHA-256 of `json.dumps(payload, sort_keys=True)`)
  is modelled by its canonical preimage: the key-sorted association
  list.  It is deterministic and stable under key reordering, which
  is all the code relies on.
* The NASA POWER fetch/parse (`fetch_nasa_power_data` /
  `parse_nasa_response`) is external I/O; `verify_credit` takes its
  outcome as an `Except String (List NasaReading)` argument — the
  `.error` case is the Python exception caught by the `try` block.
* A raised Python exception is an `Except.error`; branches that raise
  leave the database component unchanged (nothing was committed).
-/

namespace Lumix

/-- `CreditStatus` enum from `app/models/credit.py`. -/
inductive CreditStatus where
  | PENDING
  | VERIFIED
  | FLAGGED
  | SUBMITTED
deriving DecidableEq, Repr

/-- `Inverter` row (`app/models/inverter.py`): identity, geolocation,
rated capacity. -/
structure Inverter where
  id : ℕ
  gps_lat : ℚ
  gps_lon : ℚ
  capacity_kw : ℚ
deriving DecidableEq, Repr

/-- A Python `datetime` as used by this core: calendar day plus
hour-of-day (`datetime.hour ∈ 0..23`). -/
structure Timestamp where
  day : ℕ
  hour : Fin 24
deriving DecidableEq, Repr

/-- `InverterReading` row (`app/models/reading.py`). -/
structure InverterReading where
  inverter_id : ℕ
  day : ℕ
  hour : Fin 24
  kwh : ℚ
deriving DecidableEq, Repr

/-- `SatelliteReading` row (`app/models/satellite.py`). -/
structure SatelliteReading where
  lat : ℚ
  lon : ℚ
  day : ℕ
  hour : Fin 24
  irradiance : ℚ
deriving DecidableEq, Repr

/-- A parsed NASA POWER record as produced by `parse_nasa_response`:
a date and an (already converted) irradiance in W/m². -/
structure NasaReading where
  day : ℕ
  irradiance : ℚ
deriving DecidableEq, Repr

/-- The human-readable strings assigned to `credit.flagged_reason` by
`verify_credit`, with the figures the Python f-strings interpolate
carried as payload (the `%.2f` float rendering is abstracted away). -/
inductive FlaggedReason where
  | noReadings
  | fetchFailed (err : String)
  | noSatellite
  | exceedsMax (reported maxTheoretical : ℚ)
  | belowThreshold (corr threshold : ℝ)

/-- `CarbonCredit` row (`app/models/credit.py`). -/
structure CarbonCredit where
  id : ℕ
  inverter_id : ℕ
  credit_date : ℕ
  tonnes : ℚ
  status : CreditStatus
  correlation : Option ℝ
  flagged_reason : Option FlaggedReason
  created_at : ℕ
  updated_at : ℕ

/-- A JSON-serialisable value appearing in an audited payload dict. -/
inductive PayloadValue where
  | nat (n : ℕ)
  | str (s : String)
  | rat (q : ℚ)
  | real (r : ℝ)
  | reason (r : Option FlaggedReason)
  | status (s : CreditStatus)
  | optStamp (t : Option Timestamp)
  | optRat (q : Option ℚ)

/-- A payload dict passed to `hash_payload`. -/
abbrev Payload := List (String × PayloadValue)

/-- Insert one key/value pair into a key-sorted association list. -/
def insertByKey (kv : String × PayloadValue) : Payload → Payload
  | [] => [kv]
  | p :: ps => if kv.1 ≤ p.1 then kv :: p :: ps else p :: insertByKey kv ps

/-- Sort an association list by key (insertion sort). -/
def sortByKey : Payload → Payload
  | [] => []
  | p :: ps => insertByKey p (sortByKey ps)

/-- `hash_payload` (`app/utils/hashing.py`): SHA-256 over
`json.dumps(payload, sort_keys=True)`.  The digest is modelled by its
canonical preimage, the key-sorted payload: deterministic and stable
under key reordering exactly as the code requires. -/
def hash_payload (payload : Payload) : Payload := sortByKey payload

/-- `AuditLog` row (`app/models/audit.py`). -/
structure AuditLog where
  payload_hash : Payload
  action : String
  entity_type : String
  entity_id : Option ℕ

/-- The persistent state touched by this core: one list per table,
plus the autoincrement counter used when a new credit row is
inserted. -/
structure DB where
  inverters : List Inverter
  readings : List InverterReading
  satellites : List SatelliteReading
  credits : List CarbonCredit
  audits : List AuditLog
  next_id : ℕ

/-- `EMISSION_FACTOR_KG_PER_KWH` (`app/core/constants.py`). -/
def EMISSION_FACTOR_KG_PER_KWH : ℚ := 1.2

/-- `MIN_CORRELATION_THRESHOLD` (`app/core/constants.py`). -/
def MIN_CORRELATION_THRESHOLD : ℝ := 0.90

/-- `calculate_co2_avoided` (`app/handlers/carbon.py`):
`kwh * EMISSION_FACTOR / 1000`. -/
def calculate_co2_avoided (kwh : ℚ) : ℚ :=
  let kg_co2 := kwh * EMISSION_FACTOR_KG_PER_KWH
  let tonnes := kg_co2 / 1000
  tonnes

/-- `calculate_theoretical_output` (`app/handlers/verification.py`):
`(irradiance/1000) * (capacity*5) * efficiency * 1`. -/
def calculate_theoretical_output (irradiance_w_per_m2 capacity_kw : ℚ)
    (panel_efficiency : ℚ := 0.20) : ℚ :=
  let panel_area_m2 := capacity_kw * 5
  let irradiance_kw_per_m2 := irradiance_w_per_m2 / 1000
  irradiance_kw_per_m2 * panel_area_m2 * panel_efficiency * 1

/-- The readings of one inverter falling in the calendar-day window
of `credit_date` (the SQL filter shared by `verify_credit` and
`calculate_daily_credit`). -/
def readingsFor (db : DB) (inverter_id credit_date : ℕ) : List InverterReading :=
  db.readings.filter fun r => r.inverter_id == inverter_id && r.day == credit_date

/-- Summed reported energy for the date
(`sum(r.kwh for r in inverter_readings)`, and the SQL
`func.sum(...) or 0.0` in `calculate_daily_credit`). -/
def dailyTotal (db : DB) (inverter_id credit_date : ℕ) : ℚ :=
  ((readingsFor db inverter_id credit_date).map (·.kwh)).sum

/-- `sum(x) / len(x)` — the mean used inside `calculate_correlation`. -/
def mean (xs : List ℚ) : ℚ := xs.sum / (xs.length : ℚ)

/-- Numerator of the Pearson coefficient:
`sum((inv - mean_inv) * (sat - mean_sat) for inv, sat in zip(xs, ys))`. -/
def corrNumerator (xs ys : List ℚ) : ℚ :=
  ((xs.zip ys).map fun p => (p.1 - mean xs) * (p.2 - mean ys)).sum

/-- `sum((v - mean) ** 2 for v in vs)` — a series' summed squared
deviation from its mean. -/
def sumSqDev (xs : List ℚ) : ℚ :=
  (xs.map fun x => (x - mean xs) ^ 2).sum

/-- `calculate_correlation` (`app/handlers/verification.py`):
absolute Pearson correlation, `0.0` on length mismatch, empty input,
or zero denominator. -/
noncomputable def calculate_correlation (inverter_values satellite_values : List ℚ) : ℝ :=
  if inverter_values.length ≠ satellite_values.length ∨ inverter_values.length = 0 then 0
  else
    let denominator : ℝ :=
      Real.sqrt ((sumSqDev inverter_values : ℝ) * (sumSqDev satellite_values : ℝ))
    if denominator = 0 then 0
    else |(corrNumerator inverter_values satellite_values : ℝ)| / denominator

/-- The kWh values of one hour-of-day bucket
(`hourly_inverter[hour]` in `verify_credit`). -/
def hourlyBucket (rs : List InverterReading) (h : ℕ) : List ℚ :=
  (rs.filter fun r => (r.hour : ℕ) == h).map (·.kwh)

/-- One entry of `inverter_hourly`:
`sum(bucket.get(h, [0])) / max(len(bucket.get(h, [0])), 1)` —
the bucket's average, `0` for an empty bucket. -/
def hourlyAverage (rs : List InverterReading) (h : ℕ) : ℚ :=
  (hourlyBucket rs h).sum / ((max (hourlyBucket rs h).length 1 : ℕ) : ℚ)

/-- `inverter_hourly`: the 24-entry hour-of-day average profile. -/
def inverterHourly (rs : List InverterReading) : List ℚ :=
  (List.range 24).map (hourlyAverage rs)

/-- Replace the first element satisfying `p` (commit of a mutated ORM
row fetched by a `select ... first()`). -/
def replaceFirst (p : α → Bool) (a : α) : List α → List α
  | [] => []
  | x :: xs => if p x then a :: xs else x :: replaceFirst p a xs

/-- Commit a mutated `CarbonCredit` row: replace the row that the
`(inverter_id, credit_date)` lookup found. -/
def commitCredit (db : DB) (c : CarbonCredit) : DB :=
  { db with
    credits := replaceFirst
      (fun cc => cc.inverter_id == c.inverter_id && cc.credit_date == c.credit_date)
      c db.credits }

/-- `session.add` of a fresh `AuditLog` row plus commit. -/
def addAudit (db : DB) (a : AuditLog) : DB :=
  { db with audits := db.audits ++ [a] }

/-- `store_satellite_readings` (`app/handlers/nasa.py`): persist each
parsed NASA record at noon of its date. -/
def store_satellite_readings (db : DB) (lat lon : ℚ) (readings : List NasaReading) : DB :=
  { db with
    satellites :=
      db.satellites ++ readings.map fun n => ⟨lat, lon, n.day, ⟨12, by decide⟩, n.irradiance⟩ }

/-- `verify_credit` (`app/handlers/verification.py`).  `nasa` is the
outcome of the `fetch_nasa_power_data` + `parse_nasa_response` calls
guarded by the `try` block (`.error e` = the caught exception `e`);
`now` is `datetime.utcnow()`.  Returns the session after the run and
either the updated credit or the raised `ValueError` message. -/
noncomputable def verify_credit (db : DB) (nasa : Except String (List NasaReading))
    (inverter_id credit_date now : ℕ) : DB × Except String CarbonCredit :=
  match db.inverters.find? (fun v => v.id == inverter_id) with
  | none => (db, .error ("Inverter " ++ toString inverter_id ++ " not found"))
  | some inverter =>
    match db.credits.find?
        (fun c => c.inverter_id == inverter_id && c.credit_date == credit_date) with
    | none =>
        (db, .error ("Credit not found for inverter " ++ toString inverter_id ++
          " on " ++ toString credit_date))
    | some credit =>
      let inverter_readings := readingsFor db inverter_id credit_date
      if inverter_readings.isEmpty then
        let c := { credit with status := .PENDING, flagged_reason := some .noReadings }
        (commitCredit db c, .ok c)
      else
        match nasa with
        | .error e =>
          let c := { credit with status := .PENDING, flagged_reason := some (.fetchFailed e) }
          (commitCredit db c, .ok c)
        | .ok nasa_readings =>
          let db1 := store_satellite_readings db inverter.gps_lat inverter.gps_lon nasa_readings
          match nasa_readings with
          | [] =>
            let c := { credit with status := .PENDING, flagged_reason := some .noSatellite }
            (commitCredit db1 c, .ok c)
          | satellite_data :: _ =>
            let theoretical_kwh :=
              calculate_theoretical_output satellite_data.irradiance inverter.capacity_kw
            let total_inverter_kwh := (inverter_readings.map (·.kwh)).sum
            let max_theoretical := theoretical_kwh * 24 * 1.2
            if total_inverter_kwh > max_theoretical then
              let c := { credit with
                status := .FLAGGED, correlation := some 0,
                flagged_reason := some (.exceedsMax total_inverter_kwh max_theoretical) }
              let db2 := commitCredit db1 c
              let db3 := addAudit db2
                { payload_hash := hash_payload
                    [("inverter_id", .nat inverter_id), ("date", .nat credit_date),
                     ("reason", .reason c.flagged_reason)],
                  action := "credit_flagged", entity_type := "carbon_credit",
                  entity_id := some c.id }
              (db3, .ok c)
            else
              let inverter_hourly := inverterHourly inverter_readings
              let satellite_hourly := List.replicate 24 theoretical_kwh
              let correlation := calculate_correlation inverter_hourly satellite_hourly
              if correlation ≥ MIN_CORRELATION_THRESHOLD then
                let c := { credit with
                  correlation := some correlation, status := .VERIFIED,
                  flagged_reason := none, updated_at := now }
                let db2 := commitCredit db1 c
                let db3 := addAudit db2
                  { payload_hash := hash_payload
                      [("inverter_id", .nat inverter_id), ("date", .nat credit_date),
                       ("status", .status c.status), ("correlation", .real correlation)],
                    action := "credit_verified", entity_type := "carbon_credit",
                    entity_id := some c.id }
                (db3, .ok c)
              else
                let c := { credit with
                  correlation := some correlation, status := .PENDING,
                  flagged_reason := some (.belowThreshold correlation MIN_CORRELATION_THRESHOLD),
                  updated_at := now }
                let db2 := commitCredit db1 c
                let db3 := addAudit db2
                  { payload_hash := hash_payload
                      [("inverter_id", .nat inverter_id), ("date", .nat credit_date),
                       ("status", .status c.status), ("correlation", .real correlation)],
                    action := "credit_pending", entity_type := "carbon_credit",
                    entity_id := some c.id }
                (db3, .ok c)

/-- `calculate_daily_credit` (`app/handlers/carbon.py`): sum the
day's readings, convert to tonnes, and upsert the credit row;
`now` is `datetime.utcnow()`. -/
def calculate_daily_credit (db : DB) (inverter_id credit_date now : ℕ) :
    DB × CarbonCredit :=
  let total_kwh := dailyTotal db inverter_id credit_date
  let tonnes := calculate_co2_avoided total_kwh
  match db.credits.find?
      (fun c => c.inverter_id == inverter_id && c.credit_date == credit_date) with
  | some credit =>
    let c := { credit with
      tonnes := tonnes,
      updated_at := now,
      -- "Don't overwrite status if already verified/flagged"
      status := if credit.status = .PENDING then .PENDING else credit.status }
    (commitCredit db c, c)
  | none =>
    let c : CarbonCredit :=
      { id := db.next_id, inverter_id := inverter_id, credit_date := credit_date,
        tonnes := tonnes, status := .PENDING, correlation := none,
        flagged_reason := none, created_at := now, updated_at := now }
    ({ db with credits := db.credits ++ [c], next_id := db.next_id + 1 }, c)

/-- One raw row yielded by `rows_iter` in `ingest_readings_stream`:
an inverter reference, the timestamp, and the kwh value.  `none` in
`timestamp` models an unparsable ISO string
(`datetime.fromisoformat` raising), `none` in `kwh` a non-numeric
value (`float(...)` raising). -/
structure RawRow where
  inverter_id : ℕ
  timestamp : Option Timestamp
  kwh : Option ℚ
deriving DecidableEq, Repr

/-- The `InverterReading` a well-formed raw row turns into. -/
def toReading (r : RawRow) : Option InverterReading :=
  match r.timestamp, r.kwh with
  | some t, some k => some ⟨r.inverter_id, t.day, t.hour, k⟩
  | _, _ => none

/-- The audit entry `_process_batch` adds for one ingested row:
tag `reading_ingested`, hash of the raw row dict, null entity id. -/
def ingestAudit (r : RawRow) : AuditLog :=
  { payload_hash := hash_payload
      [("inverter_id", .nat r.inverter_id), ("timestamp", .optStamp r.timestamp),
       ("kwh", .optRat r.kwh)],
    action := "reading_ingested", entity_type := "inverter_reading", entity_id := none }

/-- A row `_process_batch` accepts: its inverter resolves, its
timestamp parses, its kwh is numeric. -/
def validRow (inverters : List Inverter) (r : RawRow) : Prop :=
  (inverters.find? (fun v => v.id == r.inverter_id)).isSome ∧
    r.timestamp.isSome ∧ r.kwh.isSome

instance (inverters : List Inverter) (r : RawRow) : Decidable (validRow inverters r) := by
  unfold validRow; infer_instance

/-- The per-row body of `_process_batch`: validate the inverter
reference, parse timestamp and kwh, and collect the rows to add.
Raises (returns `.error`) on the first bad row; nothing is committed
by this function alone. -/
def processRows (inverters : List Inverter) : List RawRow → Except String (List InverterReading)
  | [] => .ok []
  | r :: rest =>
    if (inverters.find? (fun v => v.id == r.inverter_id)).isNone then
      .error ("Inverter " ++ toString r.inverter_id ++ " not found")
    else
      match r.timestamp with
      | none => .error "invalid timestamp"
      | some t =>
        match r.kwh with
        | none => .error "could not convert kwh to float"
        | some k =>
          (processRows inverters rest).map fun l => ⟨r.inverter_id, t.day, t.hour, k⟩ :: l

/-- `_process_batch`: validate and stage every row of the batch, then
commit them (readings plus their `reading_ingested` audit entries) in
one transaction; an error aborts the whole batch uncommitted. -/
def processBatch (db : DB) (rows : List RawRow) : Except String (DB × List InverterReading) :=
  (processRows db.inverters rows).map fun added =>
    ({ db with
        readings := db.readings ++ added,
        audits := db.audits ++ rows.map ingestAudit }, added)

/-- Outcome of a streamed ingestion run: final session state, number
of committed transactions, and either the created readings or the
exception re-raised to the caller. -/
structure IngestResult where
  db : DB
  commits : ℕ
  result : Except String (List InverterReading)

/-- The `for row in rows_iter` loop of `ingest_readings_stream`:
accumulate rows into `batch`, processing and committing it whenever
`len(batch) >= batch_size`, and process the final partial batch after
the loop. -/
def ingestLoop (db : DB) (batch_size : ℕ) (batch : List RawRow) :
    List RawRow → IngestResult
  | [] =>
    if batch.isEmpty then ⟨db, 0, .ok []⟩
    else
      match processBatch db batch with
      | .ok (db1, added) => ⟨db1, 1, .ok added⟩
      | .error e => ⟨db, 0, .error e⟩
  | r :: rest =>
    let batch1 := batch ++ [r]
    if batch_size ≤ batch1.length then
      match processBatch db batch1 with
      | .ok (db1, added) =>
        let res := ingestLoop db1 batch_size [] rest
        ⟨res.db, res.commits + 1, res.result.map fun l => added ++ l⟩
      | .error e => ⟨db, 0, .error e⟩
    else
      ingestLoop db batch_size batch1 rest

/-- `ingest_readings_stream` (`app/handlers/ingestion.py`). -/
def ingest_readings_stream (db : DB) (rows : List RawRow) (batch_size : ℕ := 1000) :
    IngestResult :=
  ingestLoop db batch_size [] rows

/-! ### Concrete fixtures used by witnesses and counterexamples -/

/-- A 10 kW inverter with id 1. -/
def wInv : Inverter := ⟨1, 9, 7, 10⟩

/-- A pending credit for inverter 1 on day 5. -/
def wCredit : CarbonCredit := ⟨1, 1, 5, 0, .PENDING, none, none, 0, 0⟩

/-- One noon reading of 500 kWh for inverter 1 on day 5. -/
def wReading : InverterReading := ⟨1, 5, ⟨12, by decide⟩, 500⟩

/-- A parsed NASA record: 500 W/m² on day 5 (theoretical hourly
output 5 kWh for a 10 kW inverter, daily ceiling 144 kWh). -/
def wSat : NasaReading := ⟨5, 500⟩

/-- Session with the inverter, its credit, and the 500 kWh reading. -/
def wDB : DB := ⟨[wInv], [wReading], [], [wCredit], [], 2⟩

/-- Session with the inverter and credit but no readings. -/
def wDBnoReadings : DB := ⟨[wInv], [], [], [wCredit], [], 2⟩

/-- A SUBMITTED credit for inverter 1 on day 5. -/
def wSubmittedCredit : CarbonCredit := ⟨1, 1, 5, 0, .SUBMITTED, none, none, 0, 0⟩

/-- Session holding the SUBMITTED credit and no readings. -/
def wDBsubmitted : DB := ⟨[wInv], [], [], [wSubmittedCredit], [], 2⟩

/-- A VERIFIED credit for inverter 1 on day 5. -/
def wVerifiedCredit : CarbonCredit := ⟨1, 1, 5, 3, .VERIFIED, none, none, 0, 0⟩

/-- Session holding the VERIFIED credit and the 500 kWh reading. -/
def wDBverified : DB := ⟨[wInv], [wReading], [], [wVerifiedCredit], [], 2⟩

/-- A valid raw row for inverter 1 (8 o'clock, 2 kWh). -/
def wRow1 : RawRow := ⟨1, some ⟨6, ⟨8, by decide⟩⟩, some 2⟩

/-- A valid raw row for inverter 1 (9 o'clock, 3 kWh). -/
def wRow2 : RawRow := ⟨1, some ⟨6, ⟨9, by decide⟩⟩, some 3⟩

/-- A valid raw row for inverter 1 (10 o'clock, 4 kWh). -/
def wRow3 : RawRow := ⟨1, some ⟨6, ⟨10, by decide⟩⟩, some 4⟩

/-! ### Correlation arithmetic -/

lemma sum_map_sq_nonneg (f : α → ℚ) (l : List α) : 0 ≤ (l.map fun x => f x ^ 2).sum := by
  apply List.sum_nonneg
  intro x hx
  obtain ⟨p, -, rfl⟩ := List.mem_map.mp hx
  positivity

lemma sumSqDev_nonneg (xs : List ℚ) : 0 ≤ sumSqDev xs :=
  sum_map_sq_nonneg _ xs

lemma sumSqDev_eq_zero (xs : List ℚ) (h : ∀ x ∈ xs, x = mean xs) : sumSqDev xs = 0 := by
  apply List.sum_eq_zero
  intro y hy
  obtain ⟨x, hx, rfl⟩ := List.mem_map.mp hy
  rw [h x hx]
  ring

/-- Discrete Cauchy–Schwarz over a list of pairs. -/
lemma zip_cauchy_schwarz (f g : ℚ × ℚ → ℚ) : ∀ ps : List (ℚ × ℚ),
    ((ps.map fun p => f p * g p).sum) ^ 2 ≤
      (ps.map fun p => f p ^ 2).sum * (ps.map fun p => g p ^ 2).sum
  | [] => by simp
  | p :: ps => by
    have ih := zip_cauchy_schwarz f g ps
    have hX : 0 ≤ (ps.map fun q => f q ^ 2).sum := sum_map_sq_nonneg _ ps
    have hY : 0 ≤ (ps.map fun q => g q ^ 2).sum := sum_map_sq_nonneg _ ps
    simp only [List.map_cons, List.sum_cons]
    rcases eq_or_lt_of_le hX with hX0 | hXpos
    · have hS2 : ((ps.map fun q => f q * g q).sum) ^ 2 ≤ 0 := by
        calc ((ps.map fun q => f q * g q).sum) ^ 2
            ≤ (ps.map fun q => f q ^ 2).sum * (ps.map fun q => g q ^ 2).sum := ih
          _ = 0 := by rw [← hX0, zero_mul]
      have hS : (ps.map fun q => f q * g q).sum = 0 :=
        (pow_eq_zero_iff two_ne_zero).mp (le_antisymm hS2 (sq_nonneg _))
      rw [hS, ← hX0]
      nlinarith [mul_nonneg (sq_nonneg (f p)) hY]
    · nlinarith [sq_nonneg (g p * (ps.map fun q => f q ^ 2).sum -
          f p * (ps.map fun q => f q * g q).sum),
        mul_nonneg (add_nonneg (sq_nonneg (f p)) hX) (sub_nonneg.mpr ih),
        hXpos, hY, sq_nonneg (g p)]

lemma zip_map_fst_sum (f : ℚ → ℚ) : ∀ xs ys : List ℚ, xs.length = ys.length →
    ((xs.zip ys).map fun p => f p.1).sum = (xs.map f).sum
  | [], [], _ => rfl
  | [], _ :: _, h => by simp at h
  | _ :: _, [], h => by simp at h
  | x :: xs, y :: ys, h => by
    simp only [List.zip_cons_cons, List.map_cons, List.sum_cons]
    rw [zip_map_fst_sum f xs ys (by simpa using h)]

lemma zip_map_snd_sum (f : ℚ → ℚ) : ∀ xs ys : List ℚ, xs.length = ys.length →
    ((xs.zip ys).map fun p => f p.2).sum = (ys.map f).sum
  | [], [], _ => rfl
  | [], _ :: _, h => by simp at h
  | _ :: _, [], h => by simp at h
  | x :: xs, y :: ys, h => by
    simp only [List.zip_cons_cons, List.map_cons, List.sum_cons]
    rw [zip_map_snd_sum f xs ys (by simpa using h)]

lemma corrNumerator_sq_le (xs ys : List ℚ) (h : xs.length = ys.length) :
    corrNumerator xs ys ^ 2 ≤ sumSqDev xs * sumSqDev ys := by
  have key := zip_cauchy_schwarz (fun p => p.1 - mean xs) (fun p => p.2 - mean ys) (xs.zip ys)
  have h1 : ((xs.zip ys).map fun p => (p.1 - mean xs) ^ 2).sum = sumSqDev xs :=
    zip_map_fst_sum (fun x => (x - mean xs) ^ 2) xs ys h
  have h2 : ((xs.zip ys).map fun p => (p.2 - mean ys) ^ 2).sum = sumSqDev ys :=
    zip_map_snd_sum (fun y => (y - mean ys) ^ 2) xs ys h
  rw [h1, h2] at key
  exact key

lemma calculate_correlation_guard (xs ys : List ℚ)
    (h : xs.length ≠ ys.length ∨ xs.length = 0) : calculate_correlation xs ys = 0 := by
  rw [calculate_correlation, if_pos h]

lemma calculate_correlation_eq_zero_of_sumSqDev (xs ys : List ℚ)
    (h : sumSqDev xs = 0 ∨ sumSqDev ys = 0) : calculate_correlation xs ys = 0 := by
  by_cases hg : xs.length ≠ ys.length ∨ xs.length = 0
  · exact calculate_correlation_guard xs ys hg
  · rw [calculate_correlation, if_neg hg]
    have hden : Real.sqrt ((sumSqDev xs : ℝ) * (sumSqDev ys : ℝ)) = 0 := by
      rcases h with h | h <;> rw [h] <;> push_cast <;> simp
    simp [hden]

lemma calculate_correlation_nonneg_le_one (xs ys : List ℚ) :
    0 ≤ calculate_correlation xs ys ∧ calculate_correlation xs ys ≤ 1 := by
  by_cases hg : xs.length ≠ ys.length ∨ xs.length = 0
  · rw [calculate_correlation_guard xs ys hg]; norm_num
  · rw [calculate_correlation, if_neg hg]
    push_neg at hg
    by_cases hd : Real.sqrt ((sumSqDev xs : ℝ) * (sumSqDev ys : ℝ)) = 0
    · simp [hd]
    · have hD : 0 < Real.sqrt ((sumSqDev xs : ℝ) * (sumSqDev ys : ℝ)) :=
        (Real.sqrt_nonneg _).lt_of_ne (Ne.symm hd)
      simp only [if_neg hd]
      constructor
      · exact div_nonneg (abs_nonneg _) hD.le
      · rw [div_le_one hD]
        apply Real.abs_le_sqrt
        have hcs := corrNumerator_sq_le xs ys hg.1
        exact_mod_cast hcs

lemma mean_replicate (n : ℕ) (c : ℚ) (hn : n ≠ 0) : mean (List.replicate n c) = c := by
  unfold mean
  rw [List.sum_replicate, List.length_replicate, nsmul_eq_mul]
  have : (n : ℚ) ≠ 0 := Nat.cast_ne_zero.mpr hn
  field_simp

lemma sumSqDev_replicate (n : ℕ) (c : ℚ) : sumSqDev (List.replicate n c) = 0 := by
  rcases Nat.eq_zero_or_pos n with rfl | hn
  · rfl
  · apply sumSqDev_eq_zero
    intro x hx
    rw [List.eq_of_mem_replicate hx, mean_replicate n c hn.ne']

/-- The flat reference profile `[theoretical_kwh] * 24` has zero
variance, so `calculate_correlation` against it is always `0`. -/
lemma calculate_correlation_replicate (xs : List ℚ) (n : ℕ) (c : ℚ) :
    calculate_correlation xs (List.replicate n c) = 0 :=
  calculate_correlation_eq_zero_of_sumSqDev xs _ (Or.inr (sumSqDev_replicate n c))

/-! ### Branch behaviour of `verify_credit` -/

lemma verify_credit_no_inverter (db : DB) (nasa : Except String (List NasaReading))
    (i d now : ℕ)
    (hinv : db.inverters.find? (fun v => v.id == i) = none) :
    verify_credit db nasa i d now =
      (db, .error ("Inverter " ++ toString i ++ " not found")) := by
  unfold verify_credit
  rw [hinv]

lemma verify_credit_no_credit (db : DB) (nasa : Except String (List NasaReading))
    (i d now : ℕ) (inv : Inverter)
    (hinv : db.inverters.find? (fun v => v.id == i) = some inv)
    (hcred : db.credits.find? (fun cc => cc.inverter_id == i && cc.credit_date == d) = none) :
    verify_credit db nasa i d now =
      (db, .error ("Credit not found for inverter " ++ toString i ++
        " on " ++ toString d)) := by
  unfold verify_credit
  rw [hinv, hcred]

lemma verify_credit_no_readings (db : DB) (nasa : Except String (List NasaReading))
    (i d now : ℕ) (inv : Inverter) (credit : CarbonCredit)
    (hinv : db.inverters.find? (fun v => v.id == i) = some inv)
    (hcred : db.credits.find? (fun cc => cc.inverter_id == i && cc.credit_date == d) = some credit)
    (hre : (readingsFor db i d).isEmpty = true) :
    verify_credit db nasa i d now =
      (commitCredit db { credit with status := .PENDING, flagged_reason := some .noReadings },
        .ok { credit with status := .PENDING, flagged_reason := some .noReadings }) := by
  unfold verify_credit
  rw [hinv, hcred]
  simp only [hre, if_true]

lemma verify_credit_fetch_error (db : DB) (i d now : ℕ) (e : String)
    (inv : Inverter) (credit : CarbonCredit)
    (hinv : db.inverters.find? (fun v => v.id == i) = some inv)
    (hcred : db.credits.find? (fun cc => cc.inverter_id == i && cc.credit_date == d) = some credit)
    (hre : (readingsFor db i d).isEmpty = false) :
    verify_credit db (.error e) i d now =
      (commitCredit db
          { credit with status := .PENDING, flagged_reason := some (.fetchFailed e) },
        .ok { credit with status := .PENDING, flagged_reason := some (.fetchFailed e) }) := by
  unfold verify_credit
  rw [hinv, hcred]
  simp only [hre, Bool.false_eq_true, if_false]

lemma verify_credit_no_satellite (db : DB) (i d now : ℕ)
    (inv : Inverter) (credit : CarbonCredit)
    (hinv : db.inverters.find? (fun v => v.id == i) = some inv)
    (hcred : db.credits.find? (fun cc => cc.inverter_id == i && cc.credit_date == d) = some credit)
    (hre : (readingsFor db i d).isEmpty = false) :
    verify_credit db (.ok []) i d now =
      (commitCredit (store_satellite_readings db inv.gps_lat inv.gps_lon [])
          { credit with status := .PENDING, flagged_reason := some .noSatellite },
        .ok { credit with status := .PENDING, flagged_reason := some .noSatellite }) := by
  unfold verify_credit
  rw [hinv, hcred]
  simp only [hre, Bool.false_eq_true, if_false]

lemma verify_credit_fraud_branch (db : DB) (i d now : ℕ)
    (inv : Inverter) (credit : CarbonCredit) (sat : NasaReading) (rest : List NasaReading)
    (hinv : db.inverters.find? (fun v => v.id == i) = some inv)
    (hcred : db.credits.find? (fun cc => cc.inverter_id == i && cc.credit_date == d) = some credit)
    (hre : (readingsFor db i d).isEmpty = false)
    (hfraud : dailyTotal db i d >
      calculate_theoretical_output sat.irradiance inv.capacity_kw * 24 * 1.2) :
    verify_credit db (.ok (sat :: rest)) i d now =
      (addAudit
          (commitCredit (store_satellite_readings db inv.gps_lat inv.gps_lon (sat :: rest))
            { credit with
              status := .FLAGGED, correlation := some 0,
              flagged_reason := some (.exceedsMax (dailyTotal db i d)
                (calculate_theoretical_output sat.irradiance inv.capacity_kw * 24 * 1.2)) })
          { payload_hash := hash_payload
              [("inverter_id", .nat i), ("date", .nat d),
               ("reason", .reason (some (.exceedsMax (dailyTotal db i d)
                 (calculate_theoretical_output sat.irradiance inv.capacity_kw * 24 * 1.2))))],
            action := "credit_flagged", entity_type := "carbon_credit",
            entity_id := some credit.id },
        .ok { credit with
          status := .FLAGGED, correlation := some 0,
          flagged_reason := some (.exceedsMax (dailyTotal db i d)
            (calculate_theoretical_output sat.irradiance inv.capacity_kw * 24 * 1.2)) }) := by
  have hf : ((readingsFor db i d).map (·.kwh)).sum >
      calculate_theoretical_output sat.irradiance inv.capacity_kw * 24 * 1.2 := hfraud
  unfold verify_credit
  rw [hinv, hcred]
  simp only [hre, Bool.false_eq_true, if_false]
  rw [if_pos hf]
  rfl

lemma verify_credit_correlation_branch (db : DB) (i d now : ℕ)
    (inv : Inverter) (credit : CarbonCredit) (sat : NasaReading) (rest : List NasaReading)
    (hinv : db.inverters.find? (fun v => v.id == i) = some inv)
    (hcred : db.credits.find? (fun cc => cc.inverter_id == i && cc.credit_date == d) = some credit)
    (hre : (readingsFor db i d).isEmpty = false)
    (hok : ¬ (dailyTotal db i d >
      calculate_theoretical_output sat.irradiance inv.capacity_kw * 24 * 1.2)) :
    verify_credit db (.ok (sat :: rest)) i d now =
      (addAudit
          (commitCredit (store_satellite_readings db inv.gps_lat inv.gps_lon (sat :: rest))
            { credit with
              correlation := some 0, status := .PENDING,
              flagged_reason := some (.belowThreshold 0 MIN_CORRELATION_THRESHOLD),
              updated_at := now })
          { payload_hash := hash_payload
              [("inverter_id", .nat i), ("date", .nat d),
               ("status", .status .PENDING), ("correlation", .real 0)],
            action := "credit_pending", entity_type := "carbon_credit",
            entity_id := some credit.id },
        .ok { credit with
          correlation := some 0, status := .PENDING,
          flagged_reason := some (.belowThreshold 0 MIN_CORRELATION_THRESHOLD),
          updated_at := now }) := by
  have hf : ¬ (((readingsFor db i d).map (·.kwh)).sum >
      calculate_theoretical_output sat.irradiance inv.capacity_kw * 24 * 1.2) := hok
  unfold verify_credit
  rw [hinv, hcred]
  simp only [hre, Bool.false_eq_true, if_false]
  rw [if_neg hf]
  simp only [calculate_correlation_replicate]
  rw [if_neg (by norm_num [MIN_CORRELATION_THRESHOLD] : ¬ ((0:ℝ) ≥ MIN_CORRELATION_THRESHOLD))]

/-! ### Claim theorems -/

/-- **C1.** For every verification run on a credit with readings and
available satellite data, if the summed reported energy for the date
is strictly greater than `max_theoretical = theoretical_kWh * 24 * 1.2`,
then `verify_credit` sets the credit's status to FLAGGED, sets its
correlation to 0, and sets a `flagged_reason` carrying both the
reported total and the ceiling figure, skipping correlation analysis
entirely (the correlation field is assigned the constant 0, not a
computed coefficient). -/
theorem verify_credit_fraud_flags (db : DB) (i d now : ℕ)
    (inv : Inverter) (credit : CarbonCredit) (sat : NasaReading) (rest : List NasaReading)
    (hinv : db.inverters.find? (fun v => v.id == i) = some inv)
    (hcred : db.credits.find? (fun cc => cc.inverter_id == i && cc.credit_date == d) = some credit)
    (hre : (readingsFor db i d).isEmpty = false)
    (hfraud : dailyTotal db i d >
      calculate_theoretical_output sat.irradiance inv.capacity_kw * 24 * 1.2) :
    (verify_credit db (.ok (sat :: rest)) i d now).2 =
      .ok { credit with
        status := .FLAGGED, correlation := some 0,
        flagged_reason := some (.exceedsMax (dailyTotal db i d)
          (calculate_theoretical_output sat.irradiance inv.capacity_kw * 24 * 1.2)) } := by
  rw [verify_credit_fraud_branch db i d now inv credit sat rest hinv hcred hre hfraud]

theorem verify_credit_fraud_flags_witness :
    (wDB.inverters.find? (fun v => v.id == 1) = some wInv ∧
      (readingsFor wDB 1 5).isEmpty = false ∧
      dailyTotal wDB 1 5 >
        calculate_theoretical_output wSat.irradiance wInv.capacity_kw * 24 * 1.2) ∧
    (verify_credit wDB (.ok [wSat]) 1 5 0).2 =
      .ok { wCredit with
        status := .FLAGGED, correlation := some 0,
        flagged_reason := some (.exceedsMax (dailyTotal wDB 1 5)
          (calculate_theoretical_output wSat.irradiance wInv.capacity_kw * 24 * 1.2)) } :=
  ⟨⟨rfl, rfl, by
      norm_num [dailyTotal, readingsFor, wDB, wReading, wInv, wSat,
        calculate_theoretical_output]⟩,
    verify_credit_fraud_flags wDB 1 5 0 wInv wCredit wSat [] rfl rfl rfl (by
      norm_num [dailyTotal, readingsFor, wDB, wReading, wInv, wSat,
        calculate_theoretical_output])⟩

/-- **C4.** For every verification run in which the
environmental-data fetch or parse raises any failure, `verify_credit`
returns the credit with status PENDING (never FLAGGED) and a
`flagged_reason` carrying the failure, and the failure is absorbed
(the run returns `.ok`, never re-raising past the engine). -/
theorem verify_credit_fetch_failure_pending (db : DB) (i d now : ℕ) (e : String)
    (inv : Inverter) (credit : CarbonCredit)
    (hinv : db.inverters.find? (fun v => v.id == i) = some inv)
    (hcred : db.credits.find? (fun cc => cc.inverter_id == i && cc.credit_date == d) = some credit)
    (hre : (readingsFor db i d).isEmpty = false) :
    (verify_credit db (.error e) i d now).2 =
      .ok { credit with status := .PENDING, flagged_reason := some (.fetchFailed e) } := by
  rw [verify_credit_fetch_error db i d now e inv credit hinv hcred hre]

theorem verify_credit_fetch_failure_pending_witness :
    (wDB.inverters.find? (fun v => v.id == 1) = some wInv ∧
      (readingsFor wDB 1 5).isEmpty = false) ∧
    (verify_credit wDB (.error "connection timed out") 1 5 0).2 =
      .ok { wCredit with
        status := .PENDING,
        flagged_reason := some (.fetchFailed "connection timed out") } :=
  ⟨⟨rfl, rfl⟩,
    verify_credit_fetch_failure_pending wDB 1 5 0 "connection timed out" wInv wCredit
      rfl rfl rfl⟩

/-- **C10.** `verify_credit` requires both the inverter and an
existing credit for `(inverter_id, credit_date)`: if either lookup
fails it raises a "not found" `ValueError`, leaves the session
untouched (the returned state is the input state), and creates no
credit. -/
theorem verify_credit_requires_existing (db : DB) (nasa : Except String (List NasaReading))
    (i d now : ℕ) :
    (db.inverters.find? (fun v => v.id == i) = none →
      verify_credit db nasa i d now =
        (db, .error ("Inverter " ++ toString i ++ " not found"))) ∧
    (∀ inv, db.inverters.find? (fun v => v.id == i) = some inv →
      db.credits.find? (fun cc => cc.inverter_id == i && cc.credit_date == d) = none →
      verify_credit db nasa i d now =
        (db, .error ("Credit not found for inverter " ++ toString i ++
          " on " ++ toString d))) :=
  ⟨fun h => verify_credit_no_inverter db nasa i d now h,
    fun inv h1 h2 => verify_credit_no_credit db nasa i d now inv h1 h2⟩

theorem verify_credit_requires_existing_witness :
    verify_credit ⟨[], [], [], [], [], 0⟩ (.error "x") 1 5 0 =
      (⟨[], [], [], [], [], 0⟩, .error ("Inverter " ++ toString 1 ++ " not found")) ∧
    verify_credit ⟨[wInv], [], [], [], [], 0⟩ (.error "x") 1 5 0 =
      (⟨[wInv], [], [], [], [], 0⟩, .error ("Credit not found for inverter " ++ toString 1 ++
        " on " ++ toString 5)) :=
  ⟨(verify_credit_requires_existing ⟨[], [], [], [], [], 0⟩ (.error "x") 1 5 0).1 rfl,
    (verify_credit_requires_existing ⟨[wInv], [], [], [], [], 0⟩ (.error "x") 1 5 0).2
      wInv rfl rfl⟩

/-- **C2 (refuted — code bug).** `verify_credit` can never return a
VERIFIED credit.  The reference profile handed to
`calculate_correlation` is the single theoretical value repeated 24
times — a zero-variance series — so the computed correlation is
always 0, `0 ≥ 0.90` is false, and the VERIFIED branch is dead code:
every below-ceiling run ends PENDING. -/
theorem verify_credit_never_verified (db : DB) (nasa : Except String (List NasaReading))
    (i d now : ℕ) (c : CarbonCredit)
    (h : (verify_credit db nasa i d now).2 = .ok c) : c.status ≠ .VERIFIED := by
  cases hinv : db.inverters.find? (fun v => v.id == i) with
  | none =>
    rw [verify_credit_no_inverter db nasa i d now hinv] at h
    exact absurd h (by simp)
  | some inv =>
    cases hcred : db.credits.find?
        (fun cc => cc.inverter_id == i && cc.credit_date == d) with
    | none =>
      rw [verify_credit_no_credit db nasa i d now inv hinv hcred] at h
      exact absurd h (by simp)
    | some credit =>
      rcases Bool.eq_false_or_eq_true ((readingsFor db i d).isEmpty) with hre | hre
      · rw [verify_credit_no_readings db nasa i d now inv credit hinv hcred hre] at h
        simp only [Except.ok.injEq] at h
        subst h
        simp
      · cases nasa with
        | error e =>
          rw [verify_credit_fetch_error db i d now e inv credit hinv hcred hre] at h
          simp only [Except.ok.injEq] at h
          subst h
          simp
        | ok l =>
          cases l with
          | nil =>
            rw [verify_credit_no_satellite db i d now inv credit hinv hcred hre] at h
            simp only [Except.ok.injEq] at h
            subst h
            simp
          | cons sat rest =>
            by_cases hf : dailyTotal db i d >
                calculate_theoretical_output sat.irradiance inv.capacity_kw * 24 * 1.2
            · rw [verify_credit_fraud_branch db i d now inv credit sat rest
                hinv hcred hre hf] at h
              simp only [Except.ok.injEq] at h
              subst h
              simp
            · rw [verify_credit_correlation_branch db i d now inv credit sat rest
                hinv hcred hre hf] at h
              simp only [Except.ok.injEq] at h
              subst h
              simp

theorem verify_credit_never_verified_witness :
    (verify_credit wDBnoReadings (.error "nasa down") 1 5 0).2 =
      .ok { wCredit with status := .PENDING, flagged_reason := some .noReadings } ∧
    ({ wCredit with
        status := .PENDING,
        flagged_reason := some (FlaggedReason.noReadings) } : CarbonCredit).status ≠
      .VERIFIED :=
  have h : (verify_credit wDBnoReadings (.error "nasa down") 1 5 0).2 =
      .ok { wCredit with status := .PENDING, flagged_reason := some .noReadings } := by
    rw [verify_credit_no_readings wDBnoReadings (.error "nasa down") 1 5 0 wInv wCredit
      rfl rfl rfl]
  ⟨h, verify_credit_never_verified wDBnoReadings (.error "nasa down") 1 5 0 _ h⟩

/-- **C7 counterexample.** A SUBMITTED credit is not terminal under
`verify_credit`: run on a SUBMITTED credit with no readings for the
date, `verify_credit` overwrites the status to PENDING — it never
checks the current status before reassigning it. -/
theorem submitted_not_terminal_counterexample :
    wSubmittedCredit.status = .SUBMITTED ∧
    (verify_credit wDBsubmitted (.error "nasa down") 1 5 0).2 =
      .ok { wSubmittedCredit with status := .PENDING, flagged_reason := some .noReadings } ∧
    ({ wSubmittedCredit with
        status := .PENDING,
        flagged_reason := some (FlaggedReason.noReadings) } : CarbonCredit).status ≠
      .SUBMITTED := by
  refine ⟨rfl, ?_, by simp⟩
  rw [verify_credit_no_readings wDBsubmitted (.error "nasa down") 1 5 0 wInv
    wSubmittedCredit rfl rfl rfl]

/-- **C7 (amended).** `calculate_daily_credit` never changes a
SUBMITTED credit's status: the upsert path touches tonnage and the
update timestamp only.  (`verify_credit`, by contrast, does not guard
on SUBMITTED and will overwrite it — see the counterexample.) -/
theorem calculate_daily_credit_keeps_submitted (db : DB) (i d now : ℕ)
    (credit : CarbonCredit)
    (hc : db.credits.find? (fun cc => cc.inverter_id == i && cc.credit_date == d) = some credit)
    (hs : credit.status = .SUBMITTED) :
    ((calculate_daily_credit db i d now).2).status = .SUBMITTED := by
  unfold calculate_daily_credit
  rw [hc]
  dsimp only
  rw [hs]
  rfl

theorem calculate_daily_credit_keeps_submitted_witness :
    (wDBsubmitted.credits.find? (fun cc => cc.inverter_id == 1 && cc.credit_date == 5) =
        some wSubmittedCredit ∧
      wSubmittedCredit.status = .SUBMITTED) ∧
    ((calculate_daily_credit wDBsubmitted 1 5 9).2).status = .SUBMITTED :=
  ⟨⟨rfl, rfl⟩, calculate_daily_credit_keeps_submitted wDBsubmitted 1 5 9 wSubmittedCredit
    rfl rfl⟩

/-- **C8 counterexample.** A terminal PENDING branch that writes no
audit entry: with no readings for the date, `verify_credit` returns
successfully (status PENDING) yet the audit table is left exactly as
it was — no `credit_pending` entry is appended. -/
theorem audit_missing_on_early_pending_counterexample :
    wDBnoReadings.audits = [] ∧
    (verify_credit wDBnoReadings (.error "boom") 1 5 0).2 =
      .ok { wCredit with status := .PENDING, flagged_reason := some .noReadings } ∧
    (verify_credit wDBnoReadings (.error "boom") 1 5 0).1.audits = [] := by
  refine ⟨rfl, ?_, ?_⟩
  · rw [verify_credit_no_readings wDBnoReadings (.error "boom") 1 5 0 wInv wCredit
      rfl rfl rfl]
  · rw [verify_credit_no_readings wDBnoReadings (.error "boom") 1 5 0 wInv wCredit
      rfl rfl rfl]
    rfl

/-- **C8 (amended).** Only the branches that reach the
fraud/correlation comparison write an audit entry: the FLAGGED branch
appends exactly one entry tagged `credit_flagged` and the
below-threshold branch exactly one tagged `credit_pending`, each
carrying `hash_payload` of the decision inputs; the three early
PENDING branches (no readings, fetch/parse failure, no satellite
data) append none. -/
theorem verify_credit_audit_policy (db : DB) (nasa : Except String (List NasaReading))
    (i d now : ℕ) (inv : Inverter) (credit : CarbonCredit)
    (hinv : db.inverters.find? (fun v => v.id == i) = some inv)
    (hcred : db.credits.find? (fun cc => cc.inverter_id == i && cc.credit_date == d) = some credit) :
    ((readingsFor db i d).isEmpty = true →
      (verify_credit db nasa i d now).1.audits = db.audits) ∧
    (∀ e, nasa = .error e → (readingsFor db i d).isEmpty = false →
      (verify_credit db nasa i d now).1.audits = db.audits) ∧
    (nasa = .ok [] → (readingsFor db i d).isEmpty = false →
      (verify_credit db nasa i d now).1.audits = db.audits) ∧
    (∀ sat rest, nasa = .ok (sat :: rest) → (readingsFor db i d).isEmpty = false →
      (dailyTotal db i d >
          calculate_theoretical_output sat.irradiance inv.capacity_kw * 24 * 1.2 →
        (verify_credit db nasa i d now).1.audits = db.audits ++
          [⟨hash_payload
              [("inverter_id", .nat i), ("date", .nat d),
               ("reason", .reason (some (.exceedsMax (dailyTotal db i d)
                 (calculate_theoretical_output sat.irradiance inv.capacity_kw * 24 * 1.2))))],
            "credit_flagged", "carbon_credit", some credit.id⟩]) ∧
      (¬ dailyTotal db i d >
          calculate_theoretical_output sat.irradiance inv.capacity_kw * 24 * 1.2 →
        (verify_credit db nasa i d now).1.audits = db.audits ++
          [⟨hash_payload
              [("inverter_id", .nat i), ("date", .nat d),
               ("status", .status .PENDING), ("correlation", .real 0)],
            "credit_pending", "carbon_credit", some credit.id⟩])) := by
  refine ⟨?_, ?_, ?_, ?_⟩
  · intro hre
    rw [verify_credit_no_readings db nasa i d now inv credit hinv hcred hre]
    rfl
  · intro e he hre
    subst he
    rw [verify_credit_fetch_error db i d now e inv credit hinv hcred hre]
    rfl
  · intro he hre
    subst he
    rw [verify_credit_no_satellite db i d now inv credit hinv hcred hre]
    rfl
  · intro sat rest he hre
    subst he
    constructor
    · intro hf
      rw [verify_credit_fraud_branch db i d now inv credit sat rest hinv hcred hre hf]
      rfl
    · intro hf
      rw [verify_credit_correlation_branch db i d now inv credit sat rest hinv hcred hre hf]
      rfl

theorem verify_credit_audit_policy_witness :
    (wDB.inverters.find? (fun v => v.id == 1) = some wInv ∧
      (readingsFor wDB 1 5).isEmpty = false ∧
      dailyTotal wDB 1 5 >
        calculate_theoretical_output wSat.irradiance wInv.capacity_kw * 24 * 1.2) ∧
    (verify_credit wDB (.ok [wSat]) 1 5 0).1.audits = wDB.audits ++
      [⟨hash_payload
          [("inverter_id", .nat 1), ("date", .nat 5),
           ("reason", .reason (some (.exceedsMax (dailyTotal wDB 1 5)
             (calculate_theoretical_output wSat.irradiance wInv.capacity_kw * 24 * 1.2))))],
        "credit_flagged", "carbon_credit", some wCredit.id⟩] :=
  have hf : dailyTotal wDB 1 5 >
      calculate_theoretical_output wSat.irradiance wInv.capacity_kw * 24 * 1.2 := by
    norm_num [dailyTotal, readingsFor, wDB, wReading, wInv, wSat,
      calculate_theoretical_output]
  ⟨⟨rfl, rfl, hf⟩,
    ((verify_credit_audit_policy wDB (.ok [wSat]) 1 5 0 wInv wCredit rfl rfl).2.2.2
      wSat [] rfl rfl).1 hf⟩

/-- **C3.** For every pair of input lists, `calculate_correlation`
returns a value in `[0, 1]`; and it returns exactly `0` whenever the
lists have different lengths, are empty, or either list has zero
variance (all elements equal to its mean). -/
theorem calculate_correlation_spec (xs ys : List ℚ) :
    (0 ≤ calculate_correlation xs ys ∧ calculate_correlation xs ys ≤ 1) ∧
    (xs.length ≠ ys.length → calculate_correlation xs ys = 0) ∧
    (xs = [] → calculate_correlation xs ys = 0) ∧
    ((∀ x ∈ xs, x = mean xs) → calculate_correlation xs ys = 0) ∧
    ((∀ y ∈ ys, y = mean ys) → calculate_correlation xs ys = 0) := by
  refine ⟨calculate_correlation_nonneg_le_one xs ys, ?_, ?_, ?_, ?_⟩
  · intro h
    exact calculate_correlation_guard xs ys (Or.inl h)
  · intro h
    exact calculate_correlation_guard xs ys (Or.inr (by rw [h]; rfl))
  · intro h
    exact calculate_correlation_eq_zero_of_sumSqDev xs ys (Or.inl (sumSqDev_eq_zero xs h))
  · intro h
    exact calculate_correlation_eq_zero_of_sumSqDev xs ys (Or.inr (sumSqDev_eq_zero ys h))

theorem calculate_correlation_spec_witness :
    calculate_correlation [1, 2] [1, 2, 3] = 0 ∧
    calculate_correlation [5, 5] [1, 2] = 0 ∧
    0 ≤ calculate_correlation [1, 2] [3, 4] ∧ calculate_correlation [1, 2] [3, 4] ≤ 1 :=
  ⟨(calculate_correlation_spec [1, 2] [1, 2, 3]).2.1 (by norm_num),
    (calculate_correlation_spec [5, 5] [1, 2]).2.2.2.1 (by
      intro x hx
      have hm : mean ([5, 5] : List ℚ) = 5 := by norm_num [mean]
      rw [hm]
      rcases List.mem_cons.mp hx with h | h
      · exact h
      · simpa using h),
    (calculate_correlation_spec [1, 2] [3, 4]).1.1,
    (calculate_correlation_spec [1, 2] [3, 4]).1.2⟩

/-- **C5.** For every non-negative kWh value,
`calculate_co2_avoided kwh = kwh * 1.2 / 1000` (emission factor in
kg CO2 per kWh, divided by 1000 to convert kilograms to metric
tonnes); in particular `calculate_co2_avoided 1000 = 1.2`. -/
theorem calculate_co2_avoided_spec (kwh : ℚ) (_h : 0 ≤ kwh) :
    calculate_co2_avoided kwh = kwh * 1.2 / 1000 ∧
    calculate_co2_avoided 1000 = 1.2 := by
  constructor
  · rfl
  · norm_num [calculate_co2_avoided, EMISSION_FACTOR_KG_PER_KWH]

theorem calculate_co2_avoided_spec_witness :
    (0 : ℚ) ≤ 250 ∧
    (calculate_co2_avoided 250 = 250 * 1.2 / 1000 ∧ calculate_co2_avoided 1000 = 1.2) :=
  ⟨by norm_num, calculate_co2_avoided_spec 250 (by norm_num)⟩

/-! ### `calculate_daily_credit` facts -/

lemma calculate_daily_credit_tonnes (db : DB) (i d now : ℕ) :
    ((calculate_daily_credit db i d now).2).tonnes =
      calculate_co2_avoided (dailyTotal db i d) := by
  unfold calculate_daily_credit
  cases h : db.credits.find? (fun c => c.inverter_id == i && c.credit_date == d) <;> rfl

lemma calculate_daily_credit_readings (db : DB) (i d now : ℕ) :
    ((calculate_daily_credit db i d now).1).readings = db.readings := by
  unfold calculate_daily_credit
  cases h : db.credits.find? (fun c => c.inverter_id == i && c.credit_date == d) <;> rfl

lemma dailyTotal_eq_of_readings (db1 db2 : DB) (i d : ℕ)
    (h : db1.readings = db2.readings) : dailyTotal db1 i d = dailyTotal db2 i d := by
  unfold dailyTotal readingsFor
  rw [h]

/-- **C6.** For every existing credit in status VERIFIED, FLAGGED, or
SUBMITTED, `calculate_daily_credit` overwrites the credit's tonnage
(recomputed from the day's readings), refreshes its update timestamp,
and leaves its status unchanged; re-running with identical readings
yields identical tonnage (idempotent upsert). -/
theorem calculate_daily_credit_frame (db : DB) (i d t1 t2 : ℕ) (credit : CarbonCredit)
    (hc : db.credits.find? (fun cc => cc.inverter_id == i && cc.credit_date == d) = some credit)
    (hstat : credit.status = .VERIFIED ∨ credit.status = .FLAGGED ∨
      credit.status = .SUBMITTED) :
    ((calculate_daily_credit db i d t1).2).status = credit.status ∧
    ((calculate_daily_credit db i d t1).2).tonnes =
      calculate_co2_avoided (dailyTotal db i d) ∧
    ((calculate_daily_credit db i d t1).2).updated_at = t1 ∧
    ((calculate_daily_credit (calculate_daily_credit db i d t1).1 i d t2).2).tonnes =
      ((calculate_daily_credit db i d t1).2).tonnes := by
  refine ⟨?_, calculate_daily_credit_tonnes db i d t1, ?_, ?_⟩
  · unfold calculate_daily_credit
    rw [hc]
    dsimp only
    rcases hstat with h | h | h <;> rw [h] <;> rfl
  · unfold calculate_daily_credit
    rw [hc]
  · rw [calculate_daily_credit_tonnes, calculate_daily_credit_tonnes,
      dailyTotal_eq_of_readings _ db i d (calculate_daily_credit_readings db i d t1)]

theorem calculate_daily_credit_frame_witness :
    (wDBverified.credits.find? (fun cc => cc.inverter_id == 1 && cc.credit_date == 5) =
        some wVerifiedCredit ∧
      wVerifiedCredit.status = .VERIFIED) ∧
    (((calculate_daily_credit wDBverified 1 5 9).2).status = wVerifiedCredit.status ∧
      ((calculate_daily_credit wDBverified 1 5 9).2).tonnes =
        calculate_co2_avoided (dailyTotal wDBverified 1 5) ∧
      ((calculate_daily_credit wDBverified 1 5 9).2).updated_at = 9 ∧
      ((calculate_daily_credit (calculate_daily_credit wDBverified 1 5 9).1 1 5 11).2).tonnes =
        ((calculate_daily_credit wDBverified 1 5 9).2).tonnes) :=
  ⟨⟨rfl, rfl⟩,
    calculate_daily_credit_frame wDBverified 1 5 9 11 wVerifiedCredit rfl (Or.inl rfl)⟩

/-! ### Ingestion facts -/

lemma processRows_ok (I : List Inverter) : ∀ rows : List RawRow,
    (∀ r ∈ rows, validRow I r) → processRows I rows = .ok (rows.filterMap toReading)
  | [], _ => rfl
  | r :: rest, h => by
    obtain ⟨h1, h2, h3⟩ := h r (List.mem_cons_self r rest)
    obtain ⟨inv, hfind⟩ := Option.isSome_iff_exists.mp h1
    obtain ⟨t, ht⟩ := Option.isSome_iff_exists.mp h2
    obtain ⟨k, hk⟩ := Option.isSome_iff_exists.mp h3
    have ih := processRows_ok I rest fun x hx => h x (List.mem_cons_of_mem r hx)
    simp [processRows, hfind, ht, hk, ih, toReading, Except.map]

lemma processRows_error (I : List Inverter) : ∀ (rows : List RawRow) (r : RawRow),
    r ∈ rows → ¬ validRow I r → ∃ e, processRows I rows = .error e
  | [], r, hmem, _ => absurd hmem (List.not_mem_nil r)
  | r0 :: rest, r, hmem, hbad => by
    by_cases hv : validRow I r0
    · obtain ⟨h1, h2, h3⟩ := hv
      obtain ⟨inv, hfind⟩ := Option.isSome_iff_exists.mp h1
      obtain ⟨t, ht⟩ := Option.isSome_iff_exists.mp h2
      obtain ⟨k, hk⟩ := Option.isSome_iff_exists.mp h3
      have hr : r ∈ rest := by
        rcases List.mem_cons.mp hmem with rfl | hr
        · exact absurd ⟨h1, h2, h3⟩ hbad
        · exact hr
      obtain ⟨e, he⟩ := processRows_error I rest r hr hbad
      exact ⟨e, by simp [processRows, hfind, ht, hk, he, Except.map]⟩
    · cases hfind : I.find? (fun v => v.id == r0.inverter_id) with
      | none =>
        exact ⟨"Inverter " ++ toString r0.inverter_id ++ " not found",
          by simp [processRows, hfind]⟩
      | some inv =>
        cases ht : r0.timestamp with
        | none => exact ⟨"invalid timestamp", by simp [processRows, hfind, ht]⟩
        | some t =>
          cases hk : r0.kwh with
          | none =>
            exact ⟨"could not convert kwh to float", by simp [processRows, hfind, ht, hk]⟩
          | some k =>
            exact absurd ⟨by simp [hfind], by simp [ht], by simp [hk]⟩ hv

lemma processBatch_ok (db : DB) (rows : List RawRow)
    (h : ∀ r ∈ rows, validRow db.inverters r) :
    processBatch db rows = .ok
      ({ db with
          readings := db.readings ++ rows.filterMap toReading,
          audits := db.audits ++ rows.map ingestAudit },
        rows.filterMap toReading) := by
  unfold processBatch
  rw [processRows_ok db.inverters rows h]
  rfl

lemma processBatch_error (db : DB) (rows : List RawRow) (r : RawRow)
    (hmem : r ∈ rows) (hbad : ¬ validRow db.inverters r) :
    ∃ e, processBatch db rows = .error e := by
  obtain ⟨e, he⟩ := processRows_error db.inverters rows r hmem hbad
  exact ⟨e, by unfold processBatch; rw [he]; rfl⟩

lemma ingestLoop_error_of_bad_batch (B : ℕ) :
    ∀ (rows : List RawRow) (db : DB) (batch : List RawRow) (r : RawRow),
      r ∈ batch → ¬ validRow db.inverters r →
      ∃ e, ingestLoop db B batch rows = ⟨db, 0, .error e⟩
  | [], db, batch, r, hmem, hbad => by
    obtain ⟨e, he⟩ := processBatch_error db batch r hmem hbad
    have hne : batch.isEmpty = false := by
      cases batch with
      | nil => exact absurd hmem (List.not_mem_nil r)
      | cons a l => rfl
    exact ⟨e, by simp [ingestLoop, hne, he]⟩
  | r0 :: rest, db, batch, r, hmem, hbad => by
    by_cases hfull : B ≤ batch.length + 1
    · obtain ⟨e, he⟩ :=
        processBatch_error db (batch ++ [r0]) r (List.mem_append_left _ hmem) hbad
      exact ⟨e, by simp [ingestLoop, hfull, he]⟩
    · obtain ⟨e, he⟩ := ingestLoop_error_of_bad_batch B rest db (batch ++ [r0]) r
        (List.mem_append_left _ hmem) hbad
      exact ⟨e, by simp [ingestLoop, hfull, he]⟩

lemma ingestLoop_all_valid (B : ℕ) (hB : 0 < B) (rows : List RawRow) :
    ∀ (db : DB) (batch : List RawRow),
      batch.length < B →
      (∀ r ∈ batch, validRow db.inverters r) →
      (∀ r ∈ rows, validRow db.inverters r) →
      ingestLoop db B batch rows =
        ⟨{ db with
            readings := db.readings ++ (batch ++ rows).filterMap toReading,
            audits := db.audits ++ (batch ++ rows).map ingestAudit },
          (batch.length + rows.length + B - 1) / B,
          .ok ((batch ++ rows).filterMap toReading)⟩ := by
  induction rows with
  | nil =>
    intro db batch hlen hbv _
    rcases eq_or_ne batch [] with rfl | hne
    · have hdiv : (B - 1) / B = 0 := Nat.div_eq_of_lt (by omega)
      simp [ingestLoop, hdiv]
    · have hposlen : 0 < batch.length := List.length_pos.mpr hne
      have hemp : batch.isEmpty = false := by
        cases batch with
        | nil => exact absurd rfl hne
        | cons a l => rfl
      have hdiv : (batch.length + B - 1) / B = 1 := by
        apply Nat.div_eq_of_lt_le <;> omega
      simp [ingestLoop, hemp, processBatch_ok db batch hbv, hdiv]
  | cons r rest ih =>
    intro db batch hlen hbv hrv
    have hrvalid := hrv r (List.mem_cons_self r rest)
    have hrest : ∀ x ∈ rest, validRow db.inverters x := fun x hx =>
      hrv x (List.mem_cons_of_mem r hx)
    have hb1 : ∀ x ∈ batch ++ [r], validRow db.inverters x := by
      intro x hx
      rcases List.mem_append.mp hx with hx | hx
      · exact hbv x hx
      · rw [List.mem_singleton.mp hx]; exact hrvalid
    have hfm : (batch ++ [r]).filterMap toReading ++ rest.filterMap toReading
        = (batch ++ r :: rest).filterMap toReading := by
      rw [← List.filterMap_append, List.append_assoc, List.singleton_append]
    have hma : (batch ++ [r]).map ingestAudit ++ rest.map ingestAudit
        = (batch ++ r :: rest).map ingestAudit := by
      rw [← List.map_append, List.append_assoc, List.singleton_append]
    by_cases hfull : B ≤ batch.length + 1
    · have hlenB : batch.length + 1 = B := by omega
      have hpb := processBatch_ok db (batch ++ [r]) hb1
      have hih := ih
        { db with
          readings := db.readings ++ (batch ++ [r]).filterMap toReading,
          audits := db.audits ++ (batch ++ [r]).map ingestAudit }
        [] (by simpa using hB) (by intro x hx; exact absurd hx (List.not_mem_nil x)) hrest
      have hcomm : (batch.length + (rest.length + 1) + B - 1) / B
          = (rest.length + B - 1) / B + 1 := by
        have h1 : batch.length + (rest.length + 1) + B - 1 = rest.length + B - 1 + B := by
          omega
        rw [h1, Nat.add_div_right _ hB]
      simp [ingestLoop, hfull, hpb, hih, Except.map, List.append_assoc, hfm, hma, hcomm,
        -List.filterMap_append, -List.map_append]
    · have hlt1 : (batch ++ [r]).length < B := by
        rw [List.length_append, List.length_singleton]
        omega
      have hih := ih db (batch ++ [r]) hlt1 hb1 hrest
      have hcomm2 : batch.length + 1 + rest.length + B - 1
          = batch.length + (rest.length + 1) + B - 1 := by omega
      simp [ingestLoop, hfull, hih, List.append_assoc, hfm, hma, hcomm2,
        -List.filterMap_append, -List.map_append]

lemma ingestLoop_first_invalid (B : ℕ) (hB : 0 < B) (rows : List RawRow) :
    ∀ (db : DB) (batch : List RawRow) (j : ℕ) (hj : j < rows.length),
      batch.length < B →
      (∀ r ∈ batch, validRow db.inverters r) →
      (∀ r ∈ rows.take j, validRow db.inverters r) →
      ¬ validRow db.inverters (rows.get ⟨j, hj⟩) →
      ∃ e, ingestLoop db B batch rows =
        ⟨{ db with
            readings := db.readings ++
              ((batch ++ rows).take (B * ((batch.length + j) / B))).filterMap toReading,
            audits := db.audits ++
              ((batch ++ rows).take (B * ((batch.length + j) / B))).map ingestAudit },
          (batch.length + j) / B,
          .error e⟩ := by
  induction rows with
  | nil =>
    intro db batch j hj
    exact absurd hj (by simp)
  | cons r rest ih =>
    intro db batch j hj hblen hbv htake hbad
    cases j with
    | zero =>
      have hbadr : ¬ validRow db.inverters r := hbad
      have hq0 : batch.length / B = 0 := Nat.div_eq_of_lt hblen
      by_cases hfull : B ≤ batch.length + 1
      · obtain ⟨e, he⟩ := processBatch_error db (batch ++ [r]) r
          (List.mem_append_right batch (List.mem_singleton_self r)) hbadr
        exact ⟨e, by simp [ingestLoop, hfull, he, hq0]⟩
      · obtain ⟨e, he⟩ := ingestLoop_error_of_bad_batch B rest db (batch ++ [r]) r
          (List.mem_append_right batch (List.mem_singleton_self r)) hbadr
        exact ⟨e, by simp [ingestLoop, hfull, he, hq0]⟩
    | succ j' =>
      have hrval : validRow db.inverters r := htake r (List.mem_cons_self r (rest.take j'))
      have htake' : ∀ x ∈ rest.take j', validRow db.inverters x := fun x hx =>
        htake x (List.mem_cons_of_mem r hx)
      have hj' : j' < rest.length := by simpa using hj
      have hbad' : ¬ validRow db.inverters (rest.get ⟨j', hj'⟩) := hbad
      have hb1 : ∀ x ∈ batch ++ [r], validRow db.inverters x := by
        intro x hx
        rcases List.mem_append.mp hx with hx | hx
        · exact hbv x hx
        · rw [List.mem_singleton.mp hx]; exact hrval
      by_cases hfull : B ≤ batch.length + 1
      · have hlenB : batch.length + 1 = B := by omega
        have hlen1 : (batch ++ [r]).length = B := by
          rw [List.length_append, List.length_singleton]; omega
        have hpb := processBatch_ok db (batch ++ [r]) hb1
        obtain ⟨e, he⟩ := ih
          { db with
            readings := db.readings ++ (batch ++ [r]).filterMap toReading,
            audits := db.audits ++ (batch ++ [r]).map ingestAudit }
          [] j' hj' (by simpa using hB)
          (by intro x hx; exact absurd hx (List.not_mem_nil x)) htake' hbad'
        have hcomm : (batch.length + (j' + 1)) / B = j' / B + 1 := by
          have h1 : batch.length + (j' + 1) = j' + B := by omega
          rw [h1, Nat.add_div_right _ hB]
        have hsplit2 : (batch ++ r :: rest).take (B * (j' / B + 1))
            = (batch ++ [r]) ++ rest.take (B * (j' / B)) := by
          have h2 : B * (j' / B + 1) = (batch ++ [r]).length + B * (j' / B) := by
            rw [Nat.mul_add, Nat.mul_one, hlen1]
            exact Nat.add_comm _ _
          have h3 : batch ++ r :: rest = (batch ++ [r]) ++ rest := by
            rw [List.append_assoc, List.singleton_append]
          rw [h2, h3, List.take_append]
        refine ⟨e, ?_⟩
        simp only [List.nil_append, List.length_nil, Nat.zero_add] at he
        simp [ingestLoop, hfull, hpb, he, Except.map, hcomm,
          List.append_assoc, -List.filterMap_append, -List.map_append]
        refine ⟨?_, ?_⟩
        · rw [hsplit2]
          simp only [List.filterMap_append]
        · rw [← List.map_take, ← List.map_take, hsplit2]
          simp [List.map_append]
      · have hlt1 : (batch ++ [r]).length < B := by
          rw [List.length_append, List.length_singleton]; omega
        obtain ⟨e, he⟩ := ih db (batch ++ [r]) j' hj' hlt1 hb1 htake' hbad'
        have hsum : (batch ++ [r]).length + j' = batch.length + (j' + 1) := by
          rw [List.length_append, List.length_singleton]; omega
        have h3 : (batch ++ [r]) ++ rest = batch ++ r :: rest := by
          rw [List.append_assoc, List.singleton_append]
        rw [hsum, h3] at he
        exact ⟨e, by simp [ingestLoop, hfull, he,
          -List.filterMap_append, -List.map_append]⟩

/-- **C9.** For every input sequence of valid rows and batch size
`B > 0`, `ingest_readings_stream` commits in `⌈N/B⌉ = (N + B - 1)/B`
transactions (one per full batch plus a final partial batch) and
persists every row; and if the first failing row (validation failure
or missing inverter) sits at index `j` — i.e. in 1-based batch
`k = j/B + 1` — the error is raised to the caller, batch `k` is not
committed, exactly the `B * (j/B) = (k-1)*B` rows of batches
`1..k-1` remain persisted, and no later batch is applied. -/
theorem ingest_readings_stream_spec (db : DB) (B : ℕ) (rows : List RawRow) (hB : 0 < B) :
    ((∀ r ∈ rows, validRow db.inverters r) →
      ingest_readings_stream db rows B =
        ⟨{ db with
            readings := db.readings ++ rows.filterMap toReading,
            audits := db.audits ++ rows.map ingestAudit },
          (rows.length + B - 1) / B,
          .ok (rows.filterMap toReading)⟩) ∧
    (∀ j, (hj : j < rows.length) → (∀ r ∈ rows.take j, validRow db.inverters r) →
      ¬ validRow db.inverters (rows.get ⟨j, hj⟩) →
      ∃ e, ingest_readings_stream db rows B =
        ⟨{ db with
            readings := db.readings ++ (rows.take (B * (j / B))).filterMap toReading,
            audits := db.audits ++ (rows.take (B * (j / B))).map ingestAudit },
          j / B,
          .error e⟩) := by
  constructor
  · intro hv
    have h := ingestLoop_all_valid B hB rows db [] (by simpa using hB)
      (by intro x hx; exact absurd hx (List.not_mem_nil x)) hv
    simpa [ingest_readings_stream, -List.filterMap_append, -List.map_append] using h
  · intro j hj htake hbad
    obtain ⟨e, he⟩ := ingestLoop_first_invalid B hB rows db [] j hj (by simpa using hB)
      (by intro x hx; exact absurd hx (List.not_mem_nil x)) htake hbad
    exact ⟨e, by
      simpa [ingest_readings_stream, -List.filterMap_append, -List.map_append] using he⟩

theorem ingest_readings_stream_spec_witness :
    0 < 2 ∧
    ingest_readings_stream wDB [wRow1, wRow2, wRow3] 2 =
      ⟨{ wDB with
          readings := wDB.readings ++ [wRow1, wRow2, wRow3].filterMap toReading,
          audits := wDB.audits ++ [wRow1, wRow2, wRow3].map ingestAudit },
        ([wRow1, wRow2, wRow3].length + 2 - 1) / 2,
        .ok ([wRow1, wRow2, wRow3].filterMap toReading)⟩ :=
  ⟨by norm_num,
    (ingest_readings_stream_spec wDB 2 [wRow1, wRow2, wRow3] (by norm_num)).1 (by decide)⟩

end Lumix
